import Mathlib

/-!
Verification of the TimeCharts rendering library (src/src/index.js).

The development shallowly embeds the arithmetic and data-flow core of the
library in Lean: JavaScript numbers are modelled as rationals (`ℚ`), missing
(`undefined`) values as `Option`, JavaScript objects (for the option-merging
code) as a small inductive `JSVal`, and fallible code as `Except`.  Each
definition is translated directly from the JavaScript source; definitions
that instead follow the specification's wording (for refinement comparisons)
are explicitly marked as such in their doc comments.
-/

namespace TimeCharts

/-- `Math.floor`, on rationals.  `q.num / q.den` with Lean's integer division
equals `⌊q⌋` (see `jsFloor_eq_floor`); stated this way so that proofs on
concrete inputs can evaluate by kernel reduction. -/
def jsFloor (q : ℚ) : ℤ :=
  q.num / (q.den : ℤ)

theorem jsFloor_eq_floor (q : ℚ) : jsFloor q = ⌊q⌋ :=
  Rat.floor_def.symm

/-- JavaScript truncating conversion toward zero, as used by the `%` operator
on numbers: `trunc(q)` is `⌊q⌋` for non-negative `q` and `⌈q⌉` otherwise. -/
def jsTrunc (q : ℚ) : ℤ :=
  if 0 ≤ q then jsFloor q else -jsFloor (-q)

/-- JavaScript remainder `a % b` for finite numbers with `b ≠ 0`:
`a - b * trunc(a / b)` (the result has the sign of `a`).  The library only
uses `% 60`, so the `b = 0` case (which is `NaN` in JavaScript and `a` here,
because `a / 0 = 0` in `ℚ`) is never exercised. -/
def jsMod (a b : ℚ) : ℚ :=
  a - b * (jsTrunc (a / b) : ℚ)

/-- `Timeline.formatMinutes` (index.js lines 1217-1230): renders a duration in
minutes as `"4h 35m"`, dropping a zero hour or minute part and returning the
empty string for zero.  The final source block is a bare block statement (not
an `else`), but it is only reached when none of the previous branches
returned, so the semantics is that of an `else` branch. -/
def formatMinutes (minutes : ℚ) : String :=
  let h : ℤ := jsFloor (minutes / 60)
  let m : ℤ := jsFloor (jsMod minutes 60)
  if m = 0 ∧ h = 0 then ""
  else if m = 0 then toString h ++ "h"
  else if h = 0 then toString m ++ "m"
  else toString h ++ "h " ++ toString m ++ "m"

/-- `Timeline.formatMinutes2` (index.js lines 1238-1253): renders a minute
offset as 12-hour clock time.  Note the faithful translation of the source's
`m < 10 ? m + "0" : m`: since `m` is a number and `"0"` a string, JavaScript
`+` is string concatenation, so a one-digit minute gets `"0"` appended on the
RIGHT (`5` becomes `"50"`), not prepended. -/
def formatMinutes2 (minutes : ℚ) : String :=
  let h0 : ℤ := jsFloor (minutes / 60)
  let m : ℤ := jsFloor (jsMod minutes 60)
  let h : ℤ := if h0 > 12 then h0 - 12 else h0
  let ending : String := if h0 > 12 then "pm" else "am"
  if m = 0 then toString h ++ " " ++ ending
  else toString h ++ ":" ++ (if m < 10 then toString m ++ "0" else toString m) ++ " " ++ ending

theorem jsFloor_natCast (n : ℕ) : jsFloor (n : ℚ) = n := by
  rw [jsFloor_eq_floor]; exact_mod_cast Int.floor_natCast n

theorem jsFloor_natCast_div_natCast (n d : ℕ) :
    jsFloor ((n : ℚ) / (d : ℚ)) = (n / d : ℕ) := by
  rw [jsFloor_eq_floor, Rat.floor_natCast_div_natCast]
  exact (Int.ofNat_div n d).symm

theorem jsTrunc_natCast_div_natCast (n d : ℕ) :
    jsTrunc ((n : ℚ) / (d : ℚ)) = (n / d : ℕ) := by
  rw [jsTrunc, if_pos (by positivity), jsFloor_natCast_div_natCast]

theorem jsMod_natCast (n d : ℕ) : jsMod (n : ℚ) (d : ℚ) = ((n % d : ℕ) : ℚ) := by
  rw [jsMod, jsTrunc_natCast_div_natCast]
  have h2 : (d : ℚ) * ((n / d : ℕ) : ℚ) + ((n % d : ℕ) : ℚ) = (n : ℚ) := by
    exact_mod_cast congrArg (Nat.cast : ℕ → ℚ) (Nat.div_add_mod n d)
  have h3 : ((((n / d : ℕ) : ℤ)) : ℚ) = ((n / d : ℕ) : ℚ) := by exact_mod_cast rfl
  rw [h3]
  linarith

/-- `formatMinutes` on a natural number of minutes, re-expressed over `ℕ`
arithmetic so that concrete instances evaluate by kernel reduction. -/
theorem formatMinutes_natCast (n : ℕ) :
    formatMinutes (n : ℚ) =
      if n % 60 = 0 ∧ n / 60 = 0 then ""
      else if n % 60 = 0 then toString ((n / 60 : ℕ) : ℤ) ++ "h"
      else if n / 60 = 0 then toString ((n % 60 : ℕ) : ℤ) ++ "m"
      else toString ((n / 60 : ℕ) : ℤ) ++ "h " ++ toString ((n % 60 : ℕ) : ℤ) ++ "m" := by
  have h60 : ((60 : ℕ) : ℚ) = (60 : ℚ) := by norm_num
  unfold formatMinutes
  rw [← h60, jsMod_natCast, jsFloor_natCast, jsFloor_natCast_div_natCast]
  simp only [Int.natCast_eq_zero]

/-- `formatMinutes2` on a natural number of minutes, re-expressed over `ℕ`
arithmetic so that concrete instances evaluate by kernel reduction. -/
theorem formatMinutes2_natCast (n : ℕ) :
    formatMinutes2 (n : ℚ) =
      (if n % 60 = 0 then
        toString (if 12 < n / 60 then ((n / 60 : ℕ) : ℤ) - 12 else ((n / 60 : ℕ) : ℤ)) ++ " " ++
          (if 12 < n / 60 then "pm" else "am")
      else
        toString (if 12 < n / 60 then ((n / 60 : ℕ) : ℤ) - 12 else ((n / 60 : ℕ) : ℤ)) ++ ":" ++
          (if n % 60 < 10 then toString ((n % 60 : ℕ) : ℤ) ++ "0"
            else toString ((n % 60 : ℕ) : ℤ)) ++ " " ++
          (if 12 < n / 60 then "pm" else "am")) := by
  have h60 : ((60 : ℕ) : ℚ) = (60 : ℚ) := by norm_num
  unfold formatMinutes2
  rw [← h60, jsMod_natCast, jsFloor_natCast, jsFloor_natCast_div_natCast]
  have hgt : (((n / 60 : ℕ) : ℤ) > 12) ↔ (12 < n / 60) := by exact_mod_cast Iff.rfl
  have hlt : (((n % 60 : ℕ) : ℤ) < 10) ↔ (n % 60 < 10) := by exact_mod_cast Iff.rfl
  simp only [Int.natCast_eq_zero, hgt, hlt]

/-- Claim C7: `formatMinutes2` spot checks from the specification:
`formatMinutes2(90) = "1:30 am"`, `formatMinutes2(780) = "1 pm"` (hour 13
wraps to 1 pm), and `formatMinutes2(0) = "0 am"` (hour 0 renders as `0` with
the `am` suffix). -/
theorem c7_formatMinutes2_spot_checks :
    formatMinutes2 90 = "1:30 am" ∧ formatMinutes2 780 = "1 pm" ∧
      formatMinutes2 0 = "0 am" := by
  have e90 : (90 : ℚ) = ((90 : ℕ) : ℚ) := by norm_num
  have e780 : (780 : ℚ) = ((780 : ℕ) : ℚ) := by norm_num
  have e0 : (0 : ℚ) = ((0 : ℕ) : ℚ) := by norm_num
  refine ⟨?_, ?_, ?_⟩
  · rw [e90, formatMinutes2_natCast]; decide
  · rw [e780, formatMinutes2_natCast]; decide
  · rw [e0, formatMinutes2_natCast]; decide

/-- Claim C8: `formatMinutes` spot checks from the specification:
`formatMinutes(125) = "2h 5m"`, `formatMinutes(60) = "1h"`,
`formatMinutes(45) = "45m"`, and `formatMinutes(0) = ""`. -/
theorem c8_formatMinutes_spot_checks :
    formatMinutes 125 = "2h 5m" ∧ formatMinutes 60 = "1h" ∧
      formatMinutes 45 = "45m" ∧ formatMinutes 0 = "" := by
  have e125 : (125 : ℚ) = ((125 : ℕ) : ℚ) := by norm_num
  have e60 : (60 : ℚ) = ((60 : ℕ) : ℚ) := by norm_num
  have e45 : (45 : ℚ) = ((45 : ℕ) : ℚ) := by norm_num
  have e0 : (0 : ℚ) = ((0 : ℕ) : ℚ) := by norm_num
  refine ⟨?_, ?_, ?_, ?_⟩
  · rw [e125, formatMinutes_natCast]; decide
  · rw [e60, formatMinutes_natCast]; decide
  · rw [e45, formatMinutes_natCast]; decide
  · rw [e0, formatMinutes_natCast]; decide

/-- Claim C6 (code bug evidence): the source's `m + "0"` appends `"0"` to the
RIGHT of a one-digit minute, so 65 minutes renders as `"1:50 am"` — the
displayed time for one hour and five minutes reads as one-fifty — instead of
the zero-padded `"1:05 am"` that the `h:mm` convention (and the purpose of
the `m < 10` test) requires. -/
theorem c6_formatMinutes2_padding_bug :
    formatMinutes2 65 = "1:50 am" ∧ formatMinutes2 65 ≠ "1:05 am" := by
  have e65 : (65 : ℚ) = ((65 : ℕ) : ℚ) := by norm_num
  refine ⟨?_, ?_⟩
  · rw [e65, formatMinutes2_natCast]; decide
  · rw [e65, formatMinutes2_natCast]; decide

/-- One entry of a bar's `datasets` array: `{value, title}`.  Both fields can
be absent in sparse input; `none` models JavaScript `undefined`. -/
structure Dataset where
  value : Option ℚ
  title : Option String
  deriving DecidableEq

/-- One bar of the bar-chart input: `{label, datasets}`. -/
structure BarData where
  label : Option String
  datasets : List Dataset
  deriving DecidableEq

/-- JavaScript `p + v` where either operand may be `undefined`/`NaN` (`none`):
any such operand poisons the result (`undefined + x` is `NaN`). -/
def jsAdd (p v : Option ℚ) : Option ℚ :=
  match p, v with
  | some a, some b => some (a + b)
  | _, _ => none

/-- JavaScript `Math.max(p, q)` where `none` models `NaN`:
`Math.max` returns `NaN` as soon as one argument is `NaN`. -/
def jsMax (p q : Option ℚ) : Option ℚ :=
  match p, q with
  | some a, some b => some (max a b)
  | _, _ => none

/-- Inner reduce of the `max === 'relative'` computation
(index.js line 591): `c.datasets.reduce((p, c) => p + c.value, 0)`.
Note the source adds `c.value` WITHOUT the `|| 0` default used at draw
time (line 636), so a missing value poisons the sum with `NaN`. -/
def barSum (b : BarData) : Option ℚ :=
  b.datasets.foldl (fun p c => jsAdd p c.value) (some 0)

/-- The `max === 'relative'` computation of `Barchart.drawVertical`
(index.js line 591) and `Barchart.drawHorizontal` (line 738):
`data.reduce((p, c) => Math.max(p, c.datasets.reduce((p, c) => p + c.value, 0)), 0)`. -/
def relativeMax (data : List BarData) : Option ℚ :=
  data.foldl (fun p c => jsMax p (barSum c)) (some 0)

/-- Modelled from the spec's words (claim C2): the maximum over all bars of
the sum of that bar's segment values, where a missing/undefined segment value
is treated as 0.  Used only to compare against the source's `relativeMax`. -/
def relativeMaxSpec (data : List BarData) : ℚ :=
  data.foldl (fun p c => max p ((c.datasets.map (fun d => d.value.getD 0)).sum)) 0

theorem foldl_jsAdd_eq (ds : List Dataset) (a : ℚ)
    (h : ∀ d ∈ ds, d.value.isSome) :
    ds.foldl (fun p c => jsAdd p c.value) (some a) =
      some (a + (ds.map (fun d => d.value.getD 0)).sum) := by
  induction ds generalizing a with
  | nil => simp
  | cons d ds ih =>
    obtain ⟨v, hv⟩ : ∃ v, d.value = some v := by
      have := h d (List.mem_cons_self d ds)
      exact Option.isSome_iff_exists.mp this
    have hds : ∀ x ∈ ds, x.value.isSome := fun x hx => h x (List.mem_cons_of_mem d hx)
    have h1 : List.foldl (fun p c => jsAdd p c.value) (some a) (d :: ds) =
        List.foldl (fun p c => jsAdd p c.value) (some (a + v)) ds := by
      rw [List.foldl_cons, hv]
      rfl
    rw [h1, ih (a + v) hds, List.map_cons, List.sum_cons, hv]
    simp only [Option.getD_some]
    rw [add_assoc]

theorem barSum_eq (b : BarData) (h : ∀ d ∈ b.datasets, d.value.isSome) :
    barSum b = some ((b.datasets.map (fun d => d.value.getD 0)).sum) := by
  rw [barSum, foldl_jsAdd_eq b.datasets 0 h, zero_add]

theorem foldl_jsMax_eq (data : List BarData) (a : ℚ)
    (h : ∀ b ∈ data, ∀ d ∈ b.datasets, d.value.isSome) :
    data.foldl (fun p c => jsMax p (barSum c)) (some a) =
      some (data.foldl (fun p c => max p ((c.datasets.map (fun d => d.value.getD 0)).sum)) a) := by
  induction data generalizing a with
  | nil => simp
  | cons b data ih =>
    have hb := barSum_eq b (h b (List.mem_cons_self b data))
    have hdata : ∀ x ∈ data, ∀ d ∈ x.datasets, d.value.isSome :=
      fun x hx => h x (List.mem_cons_of_mem b hx)
    simp only [List.foldl_cons, hb, jsMax]
    exact ih _ hdata

theorem le_foldl_max (data : List BarData) (a : ℚ) :
    a ≤ data.foldl (fun p c => max p ((c.datasets.map (fun d => d.value.getD 0)).sum)) a := by
  induction data generalizing a with
  | nil => simp
  | cons b data ih => exact le_trans (le_max_left _ _) (ih (max a _))

/-- Claim C2, counterexample: for the one-bar input whose single segment has
no `value`, the source's relative-max computation returns `NaN` (modelled
`none`), whereas treating the missing value as 0 — as the claim asserts —
would give the well-defined maximum 0. -/
theorem c2_relative_max_counterexample :
    relativeMax [⟨none, [⟨none, none⟩]⟩] = none ∧
      relativeMaxSpec [⟨none, [⟨none, none⟩]⟩] = 0 := by
  constructor
  · rfl
  · simp [relativeMaxSpec]

/-- Claim C2 as amended: for bar-chart input in which every segment value is
present, the `max: 'relative'` computation returns exactly the maximum over
all bars of the sum of that bar's segment values, and this value is a
well-defined non-negative number.  (The claim's "missing value treated as 0"
clause fails: line 591 sums `c.value` without the `|| 0` default, so any
missing value makes the computed maximum `NaN`.) -/
theorem c2_relative_max_defined (data : List BarData)
    (h : ∀ b ∈ data, ∀ d ∈ b.datasets, d.value.isSome) :
    relativeMax data = some (relativeMaxSpec data) ∧ 0 ≤ relativeMaxSpec data := by
  constructor
  · rw [relativeMax, relativeMaxSpec]
    exact foldl_jsMax_eq data 0 h
  · exact le_foldl_max data 0

/-- Witness for `c2_relative_max_defined` at a concrete two-bar input. -/
theorem c2_relative_max_defined_witness :
    (∀ b ∈ [BarData.mk (some "x") [⟨some 30, none⟩, ⟨some 40, none⟩],
            BarData.mk none [⟨some 50, none⟩]], ∀ d ∈ b.datasets, d.value.isSome) ∧
      (relativeMax [BarData.mk (some "x") [⟨some 30, none⟩, ⟨some 40, none⟩],
          BarData.mk none [⟨some 50, none⟩]] =
        some (relativeMaxSpec [BarData.mk (some "x") [⟨some 30, none⟩, ⟨some 40, none⟩],
          BarData.mk none [⟨some 50, none⟩]]) ∧
        0 ≤ relativeMaxSpec [BarData.mk (some "x") [⟨some 30, none⟩, ⟨some 40, none⟩],
          BarData.mk none [⟨some 50, none⟩]]) :=
  ⟨by decide, c2_relative_max_defined _ (by decide)⟩

/-- The bar chart's `distance` option: the string `'variable'` or a fixed
number of pixels. -/
inductive Distance where
  | varDist : Distance
  | fixedDist : ℚ → Distance

/-- Bar spacing as computed by `Barchart.drawVertical` (index.js line 586;
`drawHorizontal` line 733 is identical with `barWidth` read from the bar
height): `Math.max(this.minDistance, this.distance === 'variable' ?
(100 * viewboxWidthScale - (this.scale.visible ? 30 : 0)) / barCount - barWidth
: this.distance)`.  Note `Math.max` wraps BOTH branches of the ternary. -/
def barSpacing (minDistance : ℚ) (distance : Distance) (viewboxWidthScale : ℚ)
    (scaleVisible : Bool) (barCount : ℚ) (barWidth : ℚ) : ℚ :=
  max minDistance
    (match distance with
      | .varDist =>
          (100 * viewboxWidthScale - (if scaleVisible then 30 else 0)) / barCount - barWidth
      | .fixedDist d => d)

/-- Modelled from the spec's words (claim C5): spacing is
`max(minDistance, (availableWidth - scaleAllowance)/barCount - barWidth)`
when spacing is `variable`, "otherwise spacing is the fixed configured
distance".  Used only to compare against the source's `barSpacing`. -/
def barSpacingSpec (minDistance : ℚ) (distance : Distance) (viewboxWidthScale : ℚ)
    (scaleVisible : Bool) (barCount : ℚ) (barWidth : ℚ) : ℚ :=
  match distance with
  | .varDist =>
      max minDistance
        ((100 * viewboxWidthScale - (if scaleVisible then 30 else 0)) / barCount - barWidth)
  | .fixedDist d => d

/-- Claim C5, counterexample: with `minDistance = 10` and fixed
`distance = 5`, the source computes spacing `10` (the `Math.max` applies to
the fixed branch too), not the fixed configured distance `5` that the claim
asserts for every fixed configuration. -/
theorem c5_bar_spacing_counterexample :
    barSpacing 10 (.fixedDist 5) 1 true 3 25 = 10 ∧
      barSpacingSpec 10 (.fixedDist 5) 1 true 3 25 = 5 ∧ (10 : ℚ) ≠ 5 := by
  refine ⟨?_, rfl, by norm_num⟩
  rw [barSpacing]
  exact max_eq_left (by norm_num)

/-- Claim C5 as amended: in the `variable` case the spacing is
`max(minDistance, (availableWidth - scaleAllowance)/barCount - barWidth)`
exactly as claimed; in the fixed case the spacing is
`max(minDistance, d)` — which collapses to the fixed configured distance `d`
exactly when `minDistance ≤ d`, but not when `minDistance` is larger. -/
theorem c5_bar_spacing (minDistance viewboxWidthScale barCount barWidth : ℚ)
    (scaleVisible : Bool) :
    (barSpacing minDistance .varDist viewboxWidthScale scaleVisible barCount barWidth =
      max minDistance
        ((100 * viewboxWidthScale - (if scaleVisible then 30 else 0)) / barCount - barWidth)) ∧
    (∀ d : ℚ, barSpacing minDistance (.fixedDist d) viewboxWidthScale scaleVisible
        barCount barWidth = max minDistance d) ∧
    (∀ d : ℚ, minDistance ≤ d →
      barSpacing minDistance (.fixedDist d) viewboxWidthScale scaleVisible
        barCount barWidth = d) := by
  refine ⟨rfl, fun d => rfl, fun d hd => ?_⟩
  rw [barSpacing]
  exact max_eq_right hd

/-- Witness for `c5_bar_spacing` at a concrete configuration. -/
theorem c5_bar_spacing_witness :
    (barSpacing 3 .varDist 2 true 4 25 = max 3 ((100 * 2 - 30) / 4 - 25)) ∧
      ((3 : ℚ) ≤ 7 ∧ barSpacing 3 (.fixedDist 7) 2 true 4 25 = 7) :=
  ⟨(c5_bar_spacing 3 2 4 25 true).1, by norm_num,
    (c5_bar_spacing 3 2 4 25 true).2.2 7 (by norm_num)⟩

/-- First-match lookup in the category-to-color map.  The JavaScript code
stores colors in a plain object `valueMap` keyed by title; keys are unique,
so an insertion-ordered association list with first-match lookup models both
`title in valueMap` (`(findColor m t).isSome`) and `valueMap[title]`. -/
def findColor (m : List (String × Option String)) (t : String) : Option (Option String) :=
  match m with
  | [] => none
  | (k, c) :: rest => if k = t then some c else findColor rest t

/-- One color lookup with title-fixed coloring, from `Barchart.drawVertical`
(index.js lines 641-647; `drawHorizontal` lines 788-794 are identical): an
unseen title is assigned
`foregroundColors[Object.keys(valueMap).length % foregroundColors.length]`
and recorded; a seen title gets its stored color.  `Object.keys(valueMap).length`
is the current number of entries, i.e. `m.length`.  The color is `Option`
because indexing an empty palette yields `undefined` in JavaScript. -/
def resolveColor (palette : List String) (m : List (String × Option String))
    (t : String) : Option String × List (String × Option String) :=
  match findColor m t with
  | some c => (c, m)
  | none => (palette.get? (m.length % palette.length),
      m ++ [(t, palette.get? (m.length % palette.length))])

/-- The per-render color loop: processes the titles of the segments in
drawing order, emitting one color per segment and threading the `valueMap`. -/
def runColors (palette : List String) (ts : List String)
    (m : List (String × Option String)) :
    List (Option String) × List (String × Option String) :=
  match ts with
  | [] => ([], m)
  | t :: rest =>
      let r := resolveColor palette m t
      let rr := runColors palette rest r.2
      (r.1 :: rr.1, rr.2)

/-- The distinct titles of a render pass in first-seen order (the insertion
order of the JavaScript `valueMap` object). -/
def firstSeen (ts : List String) : List String :=
  ts.foldl (fun acc t => if t ∈ acc then acc else acc ++ [t]) []

theorem findColor_append_of_some (m l : List (String × Option String)) (t : String)
    (c : Option String) (h : findColor m t = some c) : findColor (m ++ l) t = some c := by
  induction m with
  | nil => simp [findColor] at h
  | cons kc m ih =>
    rw [findColor] at h
    rw [List.cons_append, findColor]
    by_cases hk : kc.1 = t
    · simpa [hk] using h
    · rw [if_neg hk] at h ⊢
      exact ih h

theorem findColor_append_single (m : List (String × Option String)) (t : String)
    (c : Option String) (h : findColor m t = none) :
    findColor (m ++ [(t, c)]) t = some c := by
  induction m with
  | nil => simp [findColor]
  | cons kc m ih =>
    rw [findColor] at h
    rw [List.cons_append, findColor]
    by_cases hk : kc.1 = t
    · simp [hk] at h
    · rw [if_neg hk] at h ⊢
      exact ih h

theorem resolveColor_preserves (palette : List String) (m : List (String × Option String))
    (t u : String) (c : Option String) (h : findColor m u = some c) :
    findColor (resolveColor palette m t).2 u = some c := by
  rw [resolveColor]
  cases hf : findColor m t with
  | some d => simpa using h
  | none => exact findColor_append_of_some m _ u c h

theorem resolveColor_found (palette : List String) (m : List (String × Option String))
    (t : String) :
    findColor (resolveColor palette m t).2 t = some (resolveColor palette m t).1 := by
  rw [resolveColor]
  cases hf : findColor m t with
  | some d => simpa using hf
  | none => exact findColor_append_single m t _ hf

theorem runColors_preserves (palette : List String) (ts : List String)
    (m : List (String × Option String)) (u : String) (c : Option String)
    (h : findColor m u = some c) : findColor (runColors palette ts m).2 u = some c := by
  induction ts generalizing m with
  | nil => simpa [runColors] using h
  | cons t rest ih =>
    rw [runColors]
    exact ih _ (resolveColor_preserves palette m t u c h)

theorem runColors_emitted (palette : List String) (ts : List String)
    (m : List (String × Option String)) (i : ℕ) (t : String)
    (h : ts.get? i = some t) :
    ∃ c, findColor (runColors palette ts m).2 t = some c ∧
      (runColors palette ts m).1.get? i = some c := by
  induction ts generalizing m i with
  | nil => simp at h
  | cons t0 rest ih =>
    cases i with
    | zero =>
      rw [List.get?] at h
      injection h with h
      subst h
      refine ⟨(resolveColor palette m t0).1, ?_, rfl⟩
      rw [runColors]
      exact runColors_preserves palette rest _ t0 _ (resolveColor_found palette m t0)
    | succ i =>
      rw [List.get?] at h
      obtain ⟨c, hc1, hc2⟩ := ih (resolveColor palette m t0).2 i h
      exact ⟨c, hc1, hc2⟩

theorem runColors_snd_colors (palette : List String) (ts : List String)
    (m : List (String × Option String))
    (hm : ∀ n kv, m.get? n = some kv → kv.2 = palette.get? (n % palette.length)) :
    ∀ n kv, (runColors palette ts m).2.get? n = some kv →
      kv.2 = palette.get? (n % palette.length) := by
  induction ts generalizing m with
  | nil => simpa [runColors] using hm
  | cons t rest ih =>
    rw [runColors]
    refine ih _ ?_
    rw [resolveColor]
    cases hf : findColor m t with
    | some d => exact hm
    | none =>
      intro n kv hkv
      rcases lt_or_ge n m.length with hn | hn
      · rw [List.get?_append hn] at hkv
        exact hm n kv hkv
      · rw [List.get?_append_right hn] at hkv
        rcases Nat.eq_or_lt_of_le hn with hn2 | hn2
        · rw [← hn2, Nat.sub_self] at hkv
          injection hkv with hkv
          rw [← hn2, ← hkv]
        · rw [List.get?_eq_none.mpr (by simp; omega)] at hkv
          exact absurd hkv (by simp)

theorem findColor_eq_none_iff (m : List (String × Option String)) (t : String) :
    findColor m t = none ↔ t ∉ m.map Prod.fst := by
  induction m with
  | nil => simp [findColor]
  | cons kc m ih =>
    rw [findColor]
    by_cases hk : kc.1 = t
    · simp [hk]
    · simp [hk, ih, Ne.symm hk]

theorem runColors_keys (palette : List String) (ts : List String)
    (m : List (String × Option String)) :
    (runColors palette ts m).2.map Prod.fst =
      ts.foldl (fun acc t => if t ∈ acc then acc else acc ++ [t]) (m.map Prod.fst) := by
  induction ts generalizing m with
  | nil => simp [runColors]
  | cons t rest ih =>
    rw [runColors, List.foldl_cons, ih, resolveColor]
    cases hf : findColor m t with
    | some d =>
      have ht : t ∈ m.map Prod.fst := by
        by_contra hmem
        rw [← findColor_eq_none_iff] at hmem
        rw [hmem] at hf
        exact absurd hf (by simp)
      simp [ht]
    | none =>
      have ht : t ∉ m.map Prod.fst := (findColor_eq_none_iff m t).mp hf
      simp [ht]

/-- Claim C3: within one render pass with title-fixed coloring, color
assignment is deterministic and stable: (1) two segments with the same title
receive the same emitted color; (2) the keys of the final `valueMap` are the
distinct titles in first-seen order; (3) the Nth newly-seen distinct key
(counting from 0) is assigned `palette[N mod palette.length]`. -/
theorem c3_color_assignment (palette : List String) (ts : List String) :
    (∀ i j t, ts.get? i = some t → ts.get? j = some t →
      (runColors palette ts []).1.get? i = (runColors palette ts []).1.get? j) ∧
    ((runColors palette ts []).2.map Prod.fst = firstSeen ts) ∧
    (∀ n kv, (runColors palette ts []).2.get? n = some kv →
      kv.2 = palette.get? (n % palette.length)) := by
  refine ⟨?_, ?_, ?_⟩
  · intro i j t hi hj
    obtain ⟨ci, hci1, hci2⟩ := runColors_emitted palette ts [] i t hi
    obtain ⟨cj, hcj1, hcj2⟩ := runColors_emitted palette ts [] j t hj
    rw [hci1] at hcj1
    injection hcj1 with h
    rw [hci2, hcj2, h]
  · rw [firstSeen]
    exact runColors_keys palette ts []
  · exact runColors_snd_colors palette ts [] (by intro n kv h; simp at h)

/-- Witness for `c3_color_assignment`: with palette `["a", "b"]` and titles
`["x", "y", "x"]`, the first and third segments (same title `"x"`) get the
same color, and the second map entry (`"y"`, the key with index 1) carries
`palette[1 % 2]`. -/
theorem c3_color_assignment_witness :
    ((runColors ["a", "b"] ["x", "y", "x"] []).1.get? 0 =
      (runColors ["a", "b"] ["x", "y", "x"] []).1.get? 2) ∧
    (("y", some "b") : String × Option String).2 =
      (["a", "b"] : List String).get? (1 % 2) :=
  ⟨(c3_color_assignment ["a", "b"] ["x", "y", "x"]).1 0 2 "x" rfl rfl,
    (c3_color_assignment ["a", "b"] ["x", "y", "x"]).2.2 1 ("y", some "b") rfl⟩

/-- One interval of a timeline track: `{start, length, title}` from
`data.timelines[].values[]`; the title is optional. -/
structure TimeSlot where
  start : ℚ
  length : ℚ
  title : Option String
  deriving DecidableEq

/-- One entry of the timeline's per-track `valueMap`: the stored color and
the running total of `length` for that title (index.js lines 1118-1124). -/
structure TLEntry where
  color : Option String
  value : ℚ
  deriving DecidableEq

/-- First-match lookup in a track's `valueMap` (object keyed by title). -/
def findEntry (m : List (String × TLEntry)) (t : String) : Option TLEntry :=
  match m with
  | [] => none
  | (k, e) :: rest => if k = t then some e else findEntry rest t

/-- `valueMap[title].value = valueMap[title].value + values[j].length`
(index.js line 1124): update the matching entry in place. -/
def bumpEntry (m : List (String × TLEntry)) (t : String) (len : ℚ) :
    List (String × TLEntry) :=
  match m with
  | [] => []
  | (k, e) :: rest =>
      if k = t then (k, ⟨e.color, e.value + len⟩) :: rest
      else (k, e) :: bumpEntry rest t len

/-- Processing one interval of `Timeline.draw`'s foreground loop
(index.js lines 1112-1125): an unseen title gets
`colors[Object.keys(valueMap).length % colors.length]` and an initial total
of `values[j].length`; a seen title keeps its color and accumulates. -/
def tlStep (colors : List String) (m : List (String × TLEntry)) (v : TimeSlot) :
    List (String × TLEntry) :=
  match findEntry m (v.title.getD "") with
  | none => m ++ [(v.title.getD "",
      ⟨colors.get? (m.length % colors.length), v.length⟩)]
  | some _ => bumpEntry m (v.title.getD "") v.length

/-- The `valueMap` of one track after its foreground loop; it is declared
fresh per track and per render (index.js line 1085). -/
def tlValueMap (colors : List String) (values : List TimeSlot) :
    List (String × TLEntry) :=
  values.foldl (tlStep colors) []

/-- Legend label content for one map entry (index.js line 1188):
`` `${key} - ${this.formatMinutes(valueMap[key].value)}` ``. -/
def legendContent (key : String) (e : TLEntry) : String :=
  key ++ " - " ++ formatMinutes e.value

/-- Exact sum of `length` over the intervals of a track whose (defaulted)
title equals `key` — the quantity claim C4 asserts the legend shows. -/
def titleSum (values : List TimeSlot) (key : String) : ℚ :=
  ((values.filter (fun v => v.title.getD "" == key)).map TimeSlot.length).sum

theorem findEntry_append_single (m : List (String × TLEntry)) (t : String)
    (e : TLEntry) (h : findEntry m t = none) :
    findEntry (m ++ [(t, e)]) t = some e := by
  induction m with
  | nil => simp [findEntry]
  | cons ke m ih =>
    rw [findEntry] at h
    rw [List.cons_append, findEntry]
    by_cases hk : ke.1 = t
    · simp [hk] at h
    · rw [if_neg hk] at h ⊢
      exact ih h

theorem findEntry_append_of_ne (m : List (String × TLEntry)) (t : String)
    (e : TLEntry) (key : String) (hne : key ≠ t) :
    findEntry (m ++ [(t, e)]) key = findEntry m key := by
  induction m with
  | nil => simp [findEntry, Ne.symm hne]
  | cons ke m ih =>
    rw [List.cons_append, findEntry, findEntry]
    by_cases hk : ke.1 = key
    · simp [hk]
    · rw [if_neg hk, if_neg hk]
      exact ih

theorem findEntry_bump (m : List (String × TLEntry)) (t : String) (len : ℚ)
    (key : String) :
    findEntry (bumpEntry m t len) key =
      if key = t then (findEntry m key).map (fun e => ⟨e.color, e.value + len⟩)
      else findEntry m key := by
  induction m with
  | nil => simp [findEntry, bumpEntry]
  | cons ke m ih =>
    rw [bumpEntry]
    by_cases hk : ke.1 = t
    · by_cases hkey : key = t
      · subst hkey
        rw [if_pos hk, findEntry, if_pos hk, findEntry, if_pos hk, if_pos rfl]
        rfl
      · rw [if_pos hk, findEntry, findEntry]
        have hne : ke.1 ≠ key := by rw [hk]; exact Ne.symm hkey
        rw [if_neg hne, if_neg hne, if_neg hkey]
    · by_cases hkey : key = t
      · subst hkey
        have hne : ke.1 ≠ key := hk
        rw [if_neg hk, findEntry, findEntry, if_neg hne, if_neg hne, ih, if_pos rfl]
      · by_cases hke : ke.1 = key
        · rw [if_neg hk, findEntry, findEntry, if_pos hke, if_pos hke, if_neg hkey]
        · rw [if_neg hk, findEntry, findEntry, if_neg hke, if_neg hke, ih, if_neg hkey]

theorem titleSum_cons_eq (v : TimeSlot) (values : List TimeSlot) (key : String)
    (h : v.title.getD "" = key) :
    titleSum (v :: values) key = v.length + titleSum values key := by
  rw [titleSum, titleSum, List.filter_cons]
  simp [h]

theorem titleSum_cons_ne (v : TimeSlot) (values : List TimeSlot) (key : String)
    (h : ¬ v.title.getD "" = key) :
    titleSum (v :: values) key = titleSum values key := by
  rw [titleSum, titleSum, List.filter_cons]
  simp [h]

theorem tl_foldl_value (colors : List String) (values : List TimeSlot)
    (m : List (String × TLEntry)) (key : String) :
    (findEntry (values.foldl (tlStep colors) m) key).map TLEntry.value =
      (match findEntry m key with
        | some e => some (e.value + titleSum values key)
        | none =>
            if values.any (fun v => v.title.getD "" == key) then some (titleSum values key)
            else none) := by
  induction values generalizing m with
  | nil =>
    cases h : findEntry m key <;> simp [h, titleSum]
  | cons v values ih =>
    rw [List.foldl_cons, ih, tlStep]
    by_cases hkey : v.title.getD "" = key
    · rw [hkey]
      cases h : findEntry m key with
      | none =>
        rw [findEntry_append_single m key _ h, titleSum_cons_eq v values key hkey]
        simp [hkey]
      | some e =>
        rw [findEntry_bump, if_pos rfl, h, titleSum_cons_eq v values key hkey]
        simp [add_assoc]
    · cases h : findEntry m (v.title.getD "") with
      | none =>
        rw [findEntry_append_of_ne m _ _ key (fun hc => hkey hc.symm),
          titleSum_cons_ne v values key hkey]
        have : (v.title.getD "" == key) = false := by simpa using hkey
        simp [this]
      | some e =>
        rw [findEntry_bump, if_neg (fun hc => hkey hc.symm), titleSum_cons_ne v values key hkey]
        have : (v.title.getD "" == key) = false := by simpa using hkey
        simp [this]

/-- Claim C4: for every timeline track, a legend entry's aggregate equals the
exact sum of the `length` fields of the track's intervals whose (defaulted)
title is that category, and the legend label is exactly
`key ++ " - " ++ formatMinutes total`. -/
theorem c4_legend_aggregate (colors : List String) (values : List TimeSlot)
    (key : String) (e : TLEntry)
    (h : findEntry (tlValueMap colors values) key = some e) :
    e.value = titleSum values key ∧
      legendContent key e = key ++ " - " ++ formatMinutes (titleSum values key) := by
  have hv := tl_foldl_value colors values [] key
  rw [tlValueMap] at h
  rw [h] at hv
  have hnone : findEntry ([] : List (String × TLEntry)) key = none := rfl
  rw [hnone] at hv
  have he : e.value = titleSum values key := by
    by_cases ha : values.any (fun v => v.title.getD "" == key)
    · rw [if_pos ha] at hv
      injection hv
    · rw [if_neg ha] at hv
      exact absurd hv (by simp)
  exact ⟨he, by rw [legendContent, he]⟩

/-- Witness for `c4_legend_aggregate`: the spec's end-to-end example — two
intervals titled `"A"` of 30 minutes each produce the single legend entry
`"A - 1h"` (total 60). -/
theorem c4_legend_aggregate_witness :
    (findEntry (tlValueMap ["c1"] [⟨0, 30, some "A"⟩, ⟨30, 30, some "A"⟩]) "A" =
      some ⟨some "c1", 60⟩) ∧
    ((60 : ℚ) = titleSum [⟨0, 30, some "A"⟩, ⟨30, 30, some "A"⟩] "A" ∧
      legendContent "A" ⟨some "c1", 60⟩ =
        "A" ++ " - " ++ formatMinutes (titleSum [⟨0, 30, some "A"⟩, ⟨30, 30, some "A"⟩] "A")) := by
  have h : findEntry (tlValueMap ["c1"] [⟨0, 30, some "A"⟩, ⟨30, 30, some "A"⟩]) "A" =
      some ⟨some "c1", 60⟩ := by
    rw [tlValueMap, List.foldl_cons, List.foldl_cons, List.foldl_nil]
    rw [tlStep]
    norm_num [findEntry, tlStep, bumpEntry]
  exact ⟨h, c4_legend_aggregate ["c1"] [⟨0, 30, some "A"⟩, ⟨30, 30, some "A"⟩]
    "A" ⟨some "c1", 60⟩ h⟩

/-- `bottomArcHeight` of `createVerticalBar` (index.js lines 219-225):
`heightOld < radiusY ? Math.min(heightDelta, radiusY - heightOld) : 0`. -/
def vbarBottomArcHeight (ry hOld hDelta : ℚ) : ℚ :=
  if hOld < ry then min hDelta (ry - hOld) else 0

/-- `topArcHeight` of `createVerticalBar` (index.js lines 227-233):
`heightOld + heightDelta > heightMax - radiusY ?
Math.min(heightDelta, (heightOld + heightDelta) - (heightMax - radiusY)) : 0`. -/
def vbarTopArcHeight (bh ry hOld hDelta : ℚ) : ℚ :=
  if bh - ry < hOld + hDelta then min hDelta ((hOld + hDelta) - (bh - ry)) else 0

/-- `middleHeight = heightDelta - bottomArcHeight - topArcHeight`
(index.js line 235). -/
def vbarMiddleHeight (bh ry hOld hDelta : ℚ) : ℚ :=
  hDelta - vbarBottomArcHeight ry hOld hDelta - vbarTopArcHeight bh ry hOld hDelta

/-- The `heightOld` argument passed to `createTopArc`
(index.js line 232): `Math.max(0, heightOld - (heightMax - radiusY))`. -/
def vbarTopOld (bh ry hOld : ℚ) : ℚ :=
  max 0 (hOld - (bh - ry))

/-- The vertical intervals (offsets from the bar's bottom, in viewbox units)
covered by the path pieces that `createVerticalBar` (index.js lines 218-254)
emits for one stacked segment, as drawn by an SVG renderer.

Modelling notes, justified against the source trigonometry:
* The bottom arc (`createBottomArc`, lines 163-179) places its endpoints at
  angles `acos((radiusY - s) / radiusY)`; a point of the bottom cap circle at
  that angle sits exactly at offset `s`, so the bottom piece covers exactly
  `[heightOld, heightOld + bottomArcHeight]`.  Its `acos` arguments are in
  the legal domain `[-1, 1]` iff `0 < radiusY`, `0 ≤ heightOld` and
  `heightOld + bottomArcHeight ≤ 2 * radiusY`; outside it the JavaScript
  `Math.acos` returns `NaN`, the whole path string is poisoned, and an SVG
  renderer draws nothing of it (the erroneous command is first), which the
  model expresses by returning no pieces at all.
* The middle piece is a plain rectangle (lines 237-245) covering
  `[heightOld + bottomArcHeight, heightOld + bottomArcHeight + middleHeight]`,
  emitted only when `middleHeight > 0`.
* The top arc (`createTopArc`, lines 109-125) uses angles
  `asin((radiusY - s) / radiusY)`; every point of the top cap circle at an
  angle in `[-90°, 90°]` lies at an offset in `[heightMax - radiusY, heightMax]`,
  so the top piece is modelled by that outer bound, starting no lower than
  `heightMax - radiusY + topOld` (its first endpoint).  Its `asin` arguments
  are legal iff `0 < radiusY` and `topOld + topArcHeight ≤ 2 * radiusY`
  (`topOld ≥ 0` holds by construction); an illegal top arc poisons only
  itself, because it is the last piece of the path string, so the bottom and
  middle pieces are still drawn. -/
def vbarDrawnPieces (bh ry hOld hDelta : ℚ) : List (ℚ × ℚ) :=
  if hOld < ry ∧
      ¬(0 < ry ∧ 0 ≤ hOld ∧ hOld + vbarBottomArcHeight ry hOld hDelta ≤ 2 * ry) then
    []
  else
    (if hOld < ry then [(hOld, hOld + vbarBottomArcHeight ry hOld hDelta)] else []) ++
    (if 0 < vbarMiddleHeight bh ry hOld hDelta then
      [(hOld + vbarBottomArcHeight ry hOld hDelta,
        hOld + vbarBottomArcHeight ry hOld hDelta + vbarMiddleHeight bh ry hOld hDelta)]
      else []) ++
    (if bh - ry < hOld + hDelta ∧
        (0 < ry ∧ vbarTopOld bh ry hOld + vbarTopArcHeight bh ry hOld hDelta ≤ 2 * ry) then
      [(bh - ry + vbarTopOld bh ry hOld, bh)]
      else [])

/-- One stacked segment as emitted by the drawing loop: the running offset
`hOld` at which it starts, its proportional height, and its drawn pieces. -/
structure DrawnSeg where
  hOld : ℚ
  height : ℚ
  pieces : List (ℚ × ℚ)
  deriving DecidableEq

/-- The per-bar segment loop of `Barchart.drawVertical` (index.js lines
633-670): for each dataset, `value = datasets[j].value || 0`,
`height = barHeight * value / max`; the segment is emitted only under the
guard `height > 0 && y < barHeight` (line 653; the inner `y < barHeight`
check at line 664 is subsumed by the guard), and the running offset advances
by the full unclipped `height`. -/
def drawBarSegments (bh ry maxv : ℚ) (values : List (Option ℚ)) (y : ℚ) :
    List DrawnSeg :=
  match values with
  | [] => []
  | v :: rest =>
      if 0 < bh * v.getD 0 / maxv ∧ y < bh then
        ⟨y, bh * v.getD 0 / maxv, vbarDrawnPieces bh ry y (bh * v.getD 0 / maxv)⟩ ::
          drawBarSegments bh ry maxv rest (y + bh * v.getD 0 / maxv)
      else
        drawBarSegments bh ry maxv rest y

/-- The bar loop of `Barchart.drawVertical` (index.js lines 621-675): each
bar runs its own segment loop with an offset starting at 0. -/
def drawVerticalBars (bh ry maxv : ℚ) (data : List BarData) : List (List DrawnSeg) :=
  data.map (fun b => drawBarSegments bh ry maxv (b.datasets.map Dataset.value) 0)

theorem vbarBottomArcHeight_nonneg (ry hOld hDelta : ℚ) (hd : 0 < hDelta) :
    0 ≤ vbarBottomArcHeight ry hOld hDelta := by
  rw [vbarBottomArcHeight]
  by_cases h1 : hOld < ry
  · rw [if_pos h1]
    exact le_min (le_of_lt hd) (by linarith)
  · rw [if_neg h1]

theorem vbarDrawnPieces_bounds (bh ry hOld hDelta : ℚ)
    (hry0 : 0 ≤ ry) (hryb : ry ≤ bh) (h0 : 0 ≤ hOld) (hb : hOld < bh)
    (hd : 0 < hDelta) :
    ∀ p ∈ vbarDrawnPieces bh ry hOld hDelta, 0 ≤ p.1 ∧ p.1 ≤ p.2 ∧ p.2 ≤ bh := by
  intro p hp
  have hbah0 : 0 ≤ vbarBottomArcHeight ry hOld hDelta :=
    vbarBottomArcHeight_nonneg ry hOld hDelta hd
  have hbahr : hOld + vbarBottomArcHeight ry hOld hDelta ≤ max hOld ry := by
    rw [vbarBottomArcHeight]
    by_cases h1 : hOld < ry
    · rw [if_pos h1]
      have := min_le_right hDelta (ry - hOld)
      have : hOld + min hDelta (ry - hOld) ≤ ry := by linarith
      exact le_trans this (le_max_right hOld ry)
    · rw [if_neg h1, add_zero]
      exact le_max_left hOld ry
  have hbot : ¬(hOld < ry ∧
      ¬(0 < ry ∧ 0 ≤ hOld ∧ hOld + vbarBottomArcHeight ry hOld hDelta ≤ 2 * ry)) := by
    rintro ⟨h1, h2⟩
    apply h2
    refine ⟨by linarith, h0, ?_⟩
    have := le_trans hbahr (max_le (le_of_lt h1) le_rfl)
    linarith
  rw [vbarDrawnPieces, if_neg hbot] at hp
  rcases List.mem_append.mp hp with hp2 | hp2
  · rcases List.mem_append.mp hp2 with hp3 | hp3
    · -- bottom arc piece
      by_cases h1 : hOld < ry
      · rw [if_pos h1, List.mem_singleton] at hp3
        subst hp3
        refine ⟨h0, by simpa using hbah0, ?_⟩
        have := le_trans hbahr (max_le (le_of_lt h1) le_rfl)
        show hOld + vbarBottomArcHeight ry hOld hDelta ≤ bh
        linarith
      · rw [if_neg h1] at hp3
        exact absurd hp3 (List.not_mem_nil p)
    · -- middle piece
      by_cases h2 : 0 < vbarMiddleHeight bh ry hOld hDelta
      · rw [if_pos h2, List.mem_singleton] at hp3
        subst hp3
        have hup : hOld + hDelta - vbarTopArcHeight bh ry hOld hDelta ≤ bh := by
          rw [vbarTopArcHeight]
          by_cases h3 : bh - ry < hOld + hDelta
          · rw [if_pos h3]
            rcases le_total hDelta (hOld + hDelta - (bh - ry)) with h4 | h4
            · rw [min_eq_left h4]; linarith
            · rw [min_eq_right h4]; linarith
          · rw [if_neg h3]; linarith
        have heq : hOld + vbarBottomArcHeight ry hOld hDelta +
            vbarMiddleHeight bh ry hOld hDelta =
            hOld + hDelta - vbarTopArcHeight bh ry hOld hDelta := by
          rw [vbarMiddleHeight]; ring
        refine ⟨?_, ?_, ?_⟩
        · show (0 : ℚ) ≤ hOld + vbarBottomArcHeight ry hOld hDelta
          linarith
        · show hOld + vbarBottomArcHeight ry hOld hDelta ≤
            hOld + vbarBottomArcHeight ry hOld hDelta + vbarMiddleHeight bh ry hOld hDelta
          linarith
        · show hOld + vbarBottomArcHeight ry hOld hDelta +
            vbarMiddleHeight bh ry hOld hDelta ≤ bh
          rw [heq]
          exact hup
      · rw [if_neg h2] at hp3
        exact absurd hp3 (List.not_mem_nil p)
  · -- top arc piece
    by_cases h3 : bh - ry < hOld + hDelta ∧
        (0 < ry ∧ vbarTopOld bh ry hOld + vbarTopArcHeight bh ry hOld hDelta ≤ 2 * ry)
    · rw [if_pos h3, List.mem_singleton] at hp2
      subst hp2
      have htold : vbarTopOld bh ry hOld ≤ ry := by
        rw [vbarTopOld]
        exact max_le hry0 (by linarith)
      have htold0 : 0 ≤ vbarTopOld bh ry hOld := le_max_left 0 _
      exact ⟨by show (0:ℚ) ≤ bh - ry + vbarTopOld bh ry hOld; linarith,
        by show bh - ry + vbarTopOld bh ry hOld ≤ bh; linarith, le_refl bh⟩
    · rw [if_neg h3] at hp2
      exact absurd hp2 (List.not_mem_nil p)

theorem drawBarSegments_spec (bh ry maxv : ℚ) (values : List (Option ℚ)) :
    ∀ y, 0 ≤ y → ∀ s ∈ drawBarSegments bh ry maxv values y,
      0 ≤ s.hOld ∧ s.hOld < bh ∧ 0 < s.height ∧
        s.pieces = vbarDrawnPieces bh ry s.hOld s.height := by
  induction values with
  | nil => intro y _ s hs; simp [drawBarSegments] at hs
  | cons v rest ih =>
    intro y hy s hs
    rw [drawBarSegments] at hs
    by_cases hc : 0 < bh * v.getD 0 / maxv ∧ y < bh
    · rw [if_pos hc] at hs
      rcases List.mem_cons.mp hs with hs2 | hs2
      · subst hs2
        exact ⟨hy, hc.2, hc.1, rfl⟩
      · exact ih (y + bh * v.getD 0 / maxv) (by linarith [hc.1]) s hs2
    · rw [if_neg hc] at hs
      exact ih y hy s hs

theorem drawBarSegments_sum (bh ry maxv : ℚ) (values : List (Option ℚ)) :
    ∀ y, ((drawBarSegments bh ry maxv values y).map
        (fun s => min s.height (bh - s.hOld))).sum ≤ max 0 (bh - y) := by
  induction values with
  | nil =>
    intro y
    simp [drawBarSegments]
  | cons v rest ih =>
    intro y
    rw [drawBarSegments]
    by_cases hc : 0 < bh * v.getD 0 / maxv ∧ y < bh
    · rw [if_pos hc, List.map_cons, List.sum_cons]
      have hih := ih (y + bh * v.getD 0 / maxv)
      rcases le_total (bh * v.getD 0 / maxv) (bh - y) with h4 | h4
      · rw [show min (bh * v.getD 0 / maxv) (bh - y) = bh * v.getD 0 / maxv from
          min_eq_left h4]
        rw [show max 0 (bh - (y + bh * v.getD 0 / maxv)) =
            bh - (y + bh * v.getD 0 / maxv) from max_eq_right (by linarith)] at hih
        rw [show max 0 (bh - y) = bh - y from max_eq_right (by linarith [hc.2])]
        linarith
      · rw [show min (bh * v.getD 0 / maxv) (bh - y) = bh - y from min_eq_right h4]
        rw [show max 0 (bh - (y + bh * v.getD 0 / maxv)) = 0 from
          max_eq_left (by linarith [hc.1])] at hih
        rw [show max 0 (bh - y) = bh - y from max_eq_right (by linarith [hc.2])]
        linarith
    · rw [if_neg hc]
      exact ih y

/-- Claim C1: in every vertical bar-chart render (capsule extent `bh > 0`,
cap radius `0 ≤ ry ≤ bh`, positive chart maximum — the region where the ℚ
model is faithful to the JavaScript arithmetic) and for every bar:
(1) a segment is drawn only if its proportional height is positive and the
running offset is still below the capsule extent; (2) every drawn piece of
geometry lies inside the capsule `[0, bh]`; (3) the total drawn extent —
each drawn segment contributing its height clipped to the remaining capsule
extent — never exceeds the capsule's full extent. -/
theorem c1_overflow_clipped (bh ry maxv : ℚ) (data : List BarData)
    (hbh : 0 < bh) (hry0 : 0 ≤ ry) (hryb : ry ≤ bh) (hmaxv : 0 < maxv) :
    ∀ bar ∈ drawVerticalBars bh ry maxv data,
      (∀ s ∈ bar, 0 < s.height ∧ s.hOld < bh) ∧
      (∀ s ∈ bar, ∀ p ∈ s.pieces, 0 ≤ p.1 ∧ p.1 ≤ p.2 ∧ p.2 ≤ bh) ∧
      (bar.map (fun s => min s.height (bh - s.hOld))).sum ≤ bh := by
  intro bar hbar
  rw [drawVerticalBars] at hbar
  obtain ⟨b, hb, rfl⟩ := List.mem_map.mp hbar
  refine ⟨?_, ?_, ?_⟩
  · intro s hs
    obtain ⟨_, h2, h3, _⟩ := drawBarSegments_spec bh ry maxv _ 0 le_rfl s hs
    exact ⟨h3, h2⟩
  · intro s hs p hp
    obtain ⟨h1, h2, h3, h4⟩ := drawBarSegments_spec bh ry maxv _ 0 le_rfl s hs
    rw [h4] at hp
    exact vbarDrawnPieces_bounds bh ry s.hOld s.height hry0 hryb h1 h2 h3 p hp
  · have hsum := drawBarSegments_sum bh ry maxv (b.datasets.map Dataset.value) 0
    calc ((drawBarSegments bh ry maxv (b.datasets.map Dataset.value) 0).map
          (fun s => min s.height (bh - s.hOld))).sum
        ≤ max 0 (bh - 0) := hsum
      _ = bh := by rw [sub_zero]; exact max_eq_right (le_of_lt hbh)

/-- Witness for `c1_overflow_clipped`: capsule extent 75, cap radius 10,
explicit maximum 50, one bar with segment values 30 and 40 — the second
segment overflows (45 + 60 > 75), exercising the clipping. -/
theorem c1_overflow_clipped_witness :
    (0 < (75 : ℚ) ∧ 0 ≤ (10 : ℚ) ∧ (10 : ℚ) ≤ 75 ∧ 0 < (50 : ℚ)) ∧
    ((∀ s ∈ drawBarSegments 75 10 50 [some 30, some 40] 0,
        0 < s.height ∧ s.hOld < 75) ∧
      (∀ s ∈ drawBarSegments 75 10 50 [some 30, some 40] 0,
        ∀ p ∈ s.pieces, 0 ≤ p.1 ∧ p.1 ≤ p.2 ∧ p.2 ≤ 75) ∧
      ((drawBarSegments 75 10 50 [some 30, some 40] 0).map
        (fun s => min s.height (75 - s.hOld))).sum ≤ 75) :=
  ⟨⟨by norm_num, by norm_num, by norm_num, by norm_num⟩,
    c1_overflow_clipped 75 10 50
      [⟨some "bar", [⟨some 30, none⟩, ⟨some 40, some "t"⟩]⟩]
      (by norm_num) (by norm_num) (by norm_num) (by norm_num)
      (drawBarSegments 75 10 50 [some 30, some 40] 0)
      (List.mem_singleton.mpr rfl)⟩

/-- A JavaScript value, as far as the option-merging code needs:
`undefined`, `null`, numbers, strings, booleans, functions (opaque, tagged
with a name), arrays and plain objects (insertion-ordered field lists). -/
inductive JSVal where
  | undefined : JSVal
  | null : JSVal
  | num : ℚ → JSVal
  | str : String → JSVal
  | bool : Bool → JSVal
  | func : String → JSVal
  | arr : List JSVal → JSVal
  | obj : List (String × JSVal) → JSVal

/-- `typeof v === "object"`: true for plain objects, arrays and `null`. -/
def isObjType : JSVal → Bool
  | .null => true
  | .arr _ => true
  | .obj _ => true
  | _ => false

/-- First-match field lookup in an object's field list (keys are unique). -/
def findField (fs : List (String × JSVal)) (k : String) : Option JSVal :=
  match fs with
  | [] => none
  | (k2, v) :: rest => if k2 = k then some v else findField rest k

/-- The JavaScript `key in obj` test.  On plain objects it tests (own)
property presence; on arrays it sees the index properties and `length`; on
every primitive — including `undefined` and `null` — it throws a
`TypeError` (`Cannot use 'in' operator`). -/
def keyIn (o : JSVal) (k : String) : Except String Bool :=
  match o with
  | .obj fs => .ok ((findField fs k).isSome)
  | .arr xs => .ok (k == "length" || (List.range xs.length).any (fun i => toString i == k))
  | _ => .error "TypeError"

/-- Property read `o[k]`, defaulting to `undefined`.  Only reached after a
successful `keyIn`, so the primitive cases are never exercised. -/
def getField (o : JSVal) (k : String) : JSVal :=
  match o with
  | .obj fs => (findField fs k).getD .undefined
  | .arr xs =>
      match (List.range xs.length).find? (fun i => toString i == k) with
      | some i => xs.getD i .undefined
      | none => .undefined
  | _ => .undefined

/-- In-place update of an object's field list: an existing key keeps its
position, a new key is appended (JavaScript object insertion order). -/
def setFieldList (fs : List (String × JSVal)) (k : String) (v : JSVal) :
    List (String × JSVal) :=
  match fs with
  | [] => [(k, v)]
  | (k2, w) :: rest =>
      if k2 = k then (k2, v) :: rest else (k2, w) :: setFieldList rest k v

/-- Property write `o[k] = v`.  Writes to arrays or primitives are not
exercised by any theorem below (the merging code only writes into the values
the caller supplied where `key in obj` already succeeded). -/
def setField (o : JSVal) (k : String) (v : JSVal) : JSVal :=
  match o with
  | .obj fs => .obj (setFieldList fs k v)
  | other => other

/-- The body of the `mergeObjects` loop for a primitive (non-object,
non-overwritable) merger value `mv` at key `k`: copy it when `k` is absent
from `obj`, or when `overwrite` is set; otherwise keep the existing value
(index.js lines 48-56, the non-recursive branches). -/
def mergePrimField (o : JSVal) (k : String) (mv : JSVal) (ow : Bool) :
    Except String JSVal :=
  match keyIn o k with
  | .error e => .error e
  | .ok b =>
      if !b then .ok (setField o k mv)
      else if ow then .ok (setField o k mv)
      else .ok o

/-- `mergeObjects` iterating over the index keys of a string merger
(`Object.keys("ab") = ["0", "1"]`).  The values are one-character strings,
never objects, so this loop cannot recurse; it is unreachable from the
constructors (their mergers are object literals) and present only to make
`mergeObjects` total. -/
def mergeStrChars (o : JSVal) (i : ℕ) (cs : List Char) (ow : Bool) :
    Except String JSVal :=
  match cs with
  | [] => .ok o
  | c :: rest =>
      match mergePrimField o (toString i) (.str (String.singleton c)) ow with
      | .error e => .error e
      | .ok o2 => mergeStrChars o2 (i + 1) rest ow

mutual

/-- `mergeObjects(obj, merger, overwrite)` (index.js lines 45-57), modelled
functionally: the mutated `obj` is returned, and a thrown `TypeError` is an
`Except.error`.  `Object.keys(merger)` drives the loop: field lists for
object literals, index keys for arrays and strings, no keys for the other
primitives, and a throw for `undefined`/`null`. -/
def mergeObjects (o : JSVal) (m : JSVal) (ow : Bool) : Except String JSVal :=
  match m with
  | .obj ms => mergeFields o ms ow
  | .arr xs => mergeElems o 0 xs ow
  | .str s => mergeStrChars o 0 s.data ow
  | .undefined => .error "TypeError"
  | .null => .error "TypeError"
  | .num _ => .ok o
  | .bool _ => .ok o
  | .func _ => .ok o
termination_by sizeOf m

/-- The `for (let key of Object.keys(merger))` loop of `mergeObjects` over
an object merger: `if (!(key in obj)) obj[key] = merger[key]; else if
(typeof merger[key] === "object") mergeObjects(obj[key], merger[key],
overwrite); else if (overwrite) obj[key] = merger[key]`. -/
def mergeFields (o : JSVal) (ms : List (String × JSVal)) (ow : Bool) :
    Except String JSVal :=
  match ms with
  | [] => .ok o
  | (k, mv) :: rest =>
      match keyIn o k with
      | .error e => .error e
      | .ok b =>
          if !b then mergeFields (setField o k mv) rest ow
          else if isObjType mv then
            match mergeObjects (getField o k) mv ow with
            | .error e => .error e
            | .ok merged => mergeFields (setField o k merged) rest ow
          else if ow then mergeFields (setField o k mv) rest ow
          else mergeFields o rest ow
termination_by sizeOf ms

/-- The same loop over an array merger's index keys (arrays have
`typeof === "object"`, so `mergeObjects` can recurse into them). -/
def mergeElems (o : JSVal) (i : ℕ) (xs : List JSVal) (ow : Bool) :
    Except String JSVal :=
  match xs with
  | [] => .ok o
  | x :: rest =>
      match keyIn o (toString i) with
      | .error e => .error e
      | .ok b =>
          if !b then mergeElems (setField o (toString i) x) (i + 1) rest ow
          else if isObjType x then
            match mergeObjects (getField o (toString i)) x ow with
            | .error e => .error e
            | .ok merged => mergeElems (setField o (toString i) merged) (i + 1) rest ow
          else if ow then mergeElems (setField o (toString i) x) (i + 1) rest ow
          else mergeElems o (i + 1) rest ow
termination_by sizeOf xs

end

/-- The default palette shared by both chart types (index.js line 497 and
line 1084). -/
def defaultPalette : JSVal :=
  .arr [.str "#7cd6fd", .str "#5e64ff", .str "#743ee2", .str "#ff5858",
    .str "#ffa00a", .str "#feef72", .str "#28a745", .str "#98d85b",
    .str "#b554ff", .str "#ffa3ef", .str "#36114C", .str "#bdd3e6",
    .str "#f0f4f7", .str "#b8c2cc"]

/-- The defaults object literal of `Barchart.constructor`
(index.js lines 488-520), in source order. -/
def barchartDefaults : JSVal :=
  .obj [
    ("data", .arr []),
    ("padding", .obj [("top", .num 0), ("right", .num 0), ("bottom", .num 0),
      ("left", .num 0)]),
    ("colors", .obj [("foreground", defaultPalette), ("fixToTitle", .bool true),
      ("background", .str "#E3E6E9"), ("text", .str "black")]),
    ("orientation", .str "vertical"),
    ("font", .str "Roboto"),
    ("hover", .obj [("visible", .bool true), ("callback", .func "barchartHoverCallback")]),
    ("barSize", .num 25),
    ("distance", .str "variable"),
    ("minDistance", .num 0),
    ("adjustSize", .bool false),
    ("max", .str "relative"),
    ("scale", .obj [("visible", .bool true), ("interval", .num 10),
      ("color", .str "#E3E6E9")]),
    ("draggable", .bool false),
    ("onScroll", .func "noopScrollHandler")]

/-- The defaults object literal of `Timeline.constructor`
(index.js lines 963-997), in source order. -/
def timelineDefaults : JSVal :=
  .obj [
    ("scale", .obj [("from", .num 0), ("to", .num 1440), ("interval", .num 240),
      ("intervalStart", .num 0)]),
    ("data", .obj [("timelines", .arr [])]),
    ("padding", .obj [("top", .num 0), ("right", .num 0), ("bottom", .num 0),
      ("left", .num 0)]),
    ("colors", .obj [("background", .str "#E3E6E9"), ("text", .str "black")]),
    ("font", .str "Roboto"),
    ("hover", .obj [("visible", .bool true), ("callback", .func "timelineHoverCallback")]),
    ("legend", .obj [("visible", .bool true), ("distance", .num 15),
      ("textColor", .str "white"), ("textWidth", .str "variable")]),
    ("lineHeight", .num 25),
    ("distance", .str "variable"),
    ("adjustSize", .bool false)]

/-- The outcome of running a chart constructor: either construction aborted
after logging the given message (no rendered output exists in this case —
the constructor returned before creating any svg), or construction proceeded
past default-merging with the merged parameter object. -/
inductive ConstructOutcome where
  | aborted : String → ConstructOutcome
  | constructed : JSVal → ConstructOutcome

/-- `Barchart.constructor` (index.js lines 480-520) up to and including
default-merging: `document.querySelector` is abstracted as an
`Option Unit` (was the selector matched?).  A missing container logs
`"Container for chart does not exist"` and returns; otherwise
`mergeObjects(params, defaults)` runs, and any exception it throws
propagates to the caller (`Except.error`). -/
def barchartConstruct (container : Option Unit) (params : JSVal) :
    Except String ConstructOutcome :=
  match container with
  | none => .ok (.aborted "Container for chart does not exist")
  | some _ => Except.map ConstructOutcome.constructed (mergeObjects params barchartDefaults false)

/-- `Timeline.constructor` (index.js lines 955-997) up to and including
default-merging; identical missing-container handling. -/
def timelineConstruct (container : Option Unit) (params : JSVal) :
    Except String ConstructOutcome :=
  match container with
  | none => .ok (.aborted "Container for chart does not exist")
  | some _ => Except.map ConstructOutcome.constructed (mergeObjects params timelineDefaults false)

/-- Claim C9: for every `params` value (even `undefined`), constructing a
`Barchart` or a `Timeline` whose container selector matches no element logs
`"Container for chart does not exist"` and aborts: no exception reaches the
caller (the result is `.ok`), and no output is rendered (the outcome is
`.aborted`, which carries no svg — the constructor returns before touching
`params` or the document). -/
theorem c9_missing_container (params : JSVal) :
    barchartConstruct none params = .ok (.aborted "Container for chart does not exist") ∧
      timelineConstruct none params = .ok (.aborted "Container for chart does not exist") :=
  ⟨rfl, rfl⟩

/-- Claim C10: when the container exists but `params` is omitted
(`undefined`), both constructors throw a `TypeError` during default-merging
(`key in undefined` on the first defaults key) instead of applying the
documented defaults — the documented-optional options object is in fact
required. -/
theorem mergeFields_undefined (k : String) (mv : JSVal) (rest : List (String × JSVal))
    (ow : Bool) : mergeFields JSVal.undefined ((k, mv) :: rest) ow = .error "TypeError" := by
  rw [mergeFields]
  rfl

theorem mergeObjects_undefined_obj (f : String × JSVal) (fs : List (String × JSVal))
    (ow : Bool) : mergeObjects JSVal.undefined (.obj (f :: fs)) ow = .error "TypeError" := by
  rw [mergeObjects]
  obtain ⟨k, mv⟩ := f
  exact mergeFields_undefined k mv fs ow

theorem mergeObjects_undefined_barchartDefaults :
    mergeObjects JSVal.undefined barchartDefaults false = .error "TypeError" := by
  rw [barchartDefaults]
  exact mergeObjects_undefined_obj _ _ _

theorem mergeObjects_undefined_timelineDefaults :
    mergeObjects JSVal.undefined timelineDefaults false = .error "TypeError" := by
  rw [timelineDefaults]
  exact mergeObjects_undefined_obj _ _ _

theorem c10_params_required :
    barchartConstruct (some ()) .undefined = .error "TypeError" ∧
      timelineConstruct (some ()) .undefined = .error "TypeError" := by
  constructor
  · show Except.map ConstructOutcome.constructed
        (mergeObjects JSVal.undefined barchartDefaults false) = .error "TypeError"
    rw [mergeObjects_undefined_barchartDefaults]
    rfl
  · show Except.map ConstructOutcome.constructed
        (mergeObjects JSVal.undefined timelineDefaults false) = .error "TypeError"
    rw [mergeObjects_undefined_timelineDefaults]
    rfl

end TimeCharts
